import Mathlib

/-!
Verification of the daqu data-quality scoring engine and model-recommendation
heuristic (backend/app/services/data_analyzer.py, model_recommender.py,
model_trainer.py), shallowly embedded in Lean 4.

Modelling conventions:
* A pandas DataFrame is a `DFrame`: a row count plus a list of typed columns.
  Each cell is an `Option` value; `none` models NaN/NaT (pandas `notna`,
  `dropna`, `nunique` all skip nulls, and `duplicated` treats NaN = NaN).
* Python floats are modelled as exact rationals; IEEE infinities occurring in
  numeric data are the `NumVal.inf` / `NumVal.ninf` constructors, and float
  arithmetic on possibly-infinite quantities (quantile interpolation, IQR
  fences) is carried out in `XR`, an extended-rational type with a `nan`
  element that propagates and compares false, mirroring IEEE semantics.
* `round2` is Python's `round(x, 2)` (round-half-to-even), made exact on ℚ.
* String→date parsing done by `pd.to_datetime` is an oracle carried in the
  data: each categorical cell records its parse result (`CatCell.asDate`),
  and each categorical column records whether a strict whole-column parse
  raises (`parseFails`), since the parser itself is external to the core.
-/

/-- A numeric cell value: a finite float (exact rational) or ±infinity. -/
inductive NumVal where
  | fin (q : ℚ)
  | inf
  | ninf
deriving DecidableEq

/-- Whether a numeric value is an IEEE infinity (`np.isinf`). -/
def NumVal.isInfVal : NumVal → Bool
  | .fin _ => false
  | .inf => true
  | .ninf => true

/-- Whether a numeric value is finite. -/
def NumVal.isFinite : NumVal → Bool
  | .fin _ => true
  | _ => false

/-- Float order `v < 0` used by the negative-value validity check. -/
def NumVal.ltZero : NumVal → Bool
  | .fin q => decide (q < 0)
  | .inf => false
  | .ninf => true

/-- Float `a ≤ b` on non-NaN values, used for sorting before quantiles. -/
def NumVal.leB : NumVal → NumVal → Bool
  | .ninf, _ => true
  | _, .inf => true
  | .fin a, .fin b => decide (a ≤ b)
  | .inf, .fin _ => false
  | .inf, .ninf => false
  | .fin _, .ninf => false

/-- Extended rational mirroring IEEE float results: finite, ±∞ or NaN. -/
inductive XR where
  | fin (q : ℚ)
  | inf
  | ninf
  | nan
deriving DecidableEq

/-- Embed a (non-NaN) data value into `XR`. -/
def NumVal.toXR : NumVal → XR
  | .fin q => .fin q
  | .inf => .inf
  | .ninf => .ninf

/-- IEEE-style addition: NaN propagates, ∞ + (−∞) = NaN. -/
def XR.add : XR → XR → XR
  | .nan, _ => .nan
  | _, .nan => .nan
  | .inf, .ninf => .nan
  | .ninf, .inf => .nan
  | .inf, _ => .inf
  | _, .inf => .inf
  | .ninf, _ => .ninf
  | _, .ninf => .ninf
  | .fin a, .fin b => .fin (a + b)

/-- IEEE-style negation. -/
def XR.neg : XR → XR
  | .nan => .nan
  | .inf => .ninf
  | .ninf => .inf
  | .fin q => .fin (-q)

/-- IEEE-style subtraction. -/
def XR.sub (a b : XR) : XR := a.add b.neg

/-- IEEE-style scaling by a rational: `0 * ∞ = NaN`. -/
def XR.scale (q : ℚ) : XR → XR
  | .nan => .nan
  | .fin a => .fin (q * a)
  | .inf => if 0 < q then .inf else if q < 0 then .ninf else .nan
  | .ninf => if 0 < q then .ninf else if q < 0 then .inf else .nan

/-- IEEE-style strict order: any comparison with NaN is false. -/
def XR.ltB : XR → XR → Bool
  | .nan, _ => false
  | _, .nan => false
  | .ninf, .ninf => false
  | .ninf, _ => true
  | _, .ninf => false
  | .inf, _ => false
  | .fin _, .inf => true
  | .fin a, .fin b => decide (a < b)

/-- A categorical (object/category dtype) cell: the string plus the result of
`pd.to_datetime(value, errors=coerce)`, carried as an oracle. -/
structure CatCell where
  str : String
  asDate : Option Int
deriving DecidableEq

/-- A typed DataFrame column, as bucketed by `select_dtypes`:
numeric, categorical (object/category), datetime64 or bool.
`isFloat` distinguishes float64/float32 from integer dtypes;
`isCategoryDtype` distinguishes pandas `category` dtype from `object`;
`parseFails` records whether a strict `pd.to_datetime` on the column raises. -/
inductive Col where
  | num (name : String) (isFloat : Bool) (data : List (Option NumVal))
  | cat (name : String) (isCategoryDtype : Bool) (parseFails : Bool)
      (data : List (Option CatCell))
  | dt (name : String) (data : List (Option Int))
  | bool (name : String) (data : List (Option Bool))
deriving DecidableEq

/-- Column name. -/
def colName : Col → String
  | .num n _ _ => n
  | .cat n _ _ _ => n
  | .dt n _ => n
  | .bool n _ => n

/-- Length of the column's stored data. -/
def colDataLen : Col → ℕ
  | .num _ _ d => d.length
  | .cat _ _ _ d => d.length
  | .dt _ d => d.length
  | .bool _ d => d.length

/-- Number of non-null cells in a column (`notna().sum()`). -/
def nonNullCount : Col → ℕ
  | .num _ _ d => d.countP (fun o => o.isSome)
  | .cat _ _ _ d => d.countP (fun o => o.isSome)
  | .dt _ d => d.countP (fun o => o.isSome)
  | .bool _ d => d.countP (fun o => o.isSome)

/-- Number of null cells in a column (`isna().sum()`). -/
def nullCount : Col → ℕ
  | .num _ _ d => d.countP (fun o => o.isNone)
  | .cat _ _ _ d => d.countP (fun o => o.isNone)
  | .dt _ d => d.countP (fun o => o.isNone)
  | .bool _ d => d.countP (fun o => o.isNone)

/-- A cell value as compared by `DataFrame.duplicated` (NaN equals NaN). -/
inductive Cell where
  | num (v : Option NumVal)
  | cat (v : Option String)
  | dt (v : Option Int)
  | bool (v : Option Bool)
deriving DecidableEq

/-- The cell of a column at row index `i`. -/
def cellAt (i : ℕ) : Col → Cell
  | .num _ _ d => .num (d.getD i none)
  | .cat _ _ _ d => .cat ((d.getD i none).map CatCell.str)
  | .dt _ d => .dt (d.getD i none)
  | .bool _ d => .bool (d.getD i none)

/-- A dataset: an immutable table of `nRows` rows over typed columns. -/
structure DFrame where
  nRows : ℕ
  cols : List Col

/-- Well-formedness: every column stores exactly `nRows` cells. -/
def WFd (df : DFrame) : Prop := ∀ c ∈ df.cols, colDataLen c = df.nRows

instance (df : DFrame) : Decidable (WFd df) := List.decidableBAll _ df.cols

/-- Python's `str.lower()` (ASCII case folding), defined over the character
list so that it reduces in the kernel. -/
def lowerStr (s : String) : String := ⟨s.data.map Char.toLower⟩

/-- Python's `str.strip()`: remove leading and trailing whitespace (defined
over the character list so that it reduces in the kernel). -/
def trimStr (s : String) : String :=
  ⟨((s.data.dropWhile Char.isWhitespace).reverse.dropWhile Char.isWhitespace).reverse⟩

/-- Case-insensitive substring search support: `needle` occurs in `hay`. -/
def listHasSub : List Char → List Char → Bool
  | [], _ => true
  | _ :: _, [] => false
  | n, c :: cs => (n.isPrefixOf (c :: cs)) || listHasSub n cs

/-- Python's `needle in hay` on strings. -/
def strContains (hay needle : String) : Bool := listHasSub needle.toList hay.toList

/-- Whether any keyword occurs in the lower-cased name
(mirrors `any(kw in col.lower() for kw in kws)`). -/
def hasKw (kws : List String) (name : String) : Bool :=
  kws.any (fun k => strContains (lowerStr name) k)

/-- Round-half-to-even to an integer, Python's `round(x)` made exact on ℚ. -/
def rhe (q : ℚ) : ℤ :=
  if q - ⌊q⌋ < 1/2 then ⌊q⌋
  else if 1/2 < q - ⌊q⌋ then ⌊q⌋ + 1
  else if 2 ∣ ⌊q⌋ then ⌊q⌋ else ⌊q⌋ + 1

/-- Python's `round(x, 2)` made exact on ℚ. -/
def round2 (q : ℚ) : ℚ := (rhe (q * 100) : ℚ) / 100

theorem rhe_le {q : ℚ} {b : ℤ} (h : q ≤ (b : ℚ)) : rhe q ≤ b := by
  have hfb : ⌊q⌋ ≤ b := by
    have h2 := Int.floor_le_floor h
    rwa [Int.floor_intCast] at h2
  have key : ¬ (q - ⌊q⌋ < 1/2) → ⌊q⌋ + 1 ≤ b := by
    intro h1
    rcases lt_or_eq_of_le hfb with hlt | heq
    · omega
    · exfalso
      apply h1
      have hub : q ≤ (⌊q⌋ : ℚ) := by rw [heq]; exact h
      have hlb : (⌊q⌋ : ℚ) ≤ q := Int.floor_le q
      have hz : q - ⌊q⌋ = 0 := by linarith
      rw [hz]; norm_num
  unfold rhe
  split_ifs with h1 h2 h3
  · exact hfb
  · exact key h1
  · exact hfb
  · exact key h1

theorem le_rhe {q : ℚ} {a : ℤ} (h : (a : ℚ) ≤ q) : a ≤ rhe q := by
  have hfa : a ≤ ⌊q⌋ := Int.le_floor.mpr h
  unfold rhe
  split_ifs <;> omega

theorem round2_nonneg {q : ℚ} (h : 0 ≤ q) : 0 ≤ round2 q := by
  unfold round2
  have h1 : (0 : ℤ) ≤ rhe (q * 100) := le_rhe (by push_cast; linarith)
  have h2 : (0 : ℚ) ≤ (rhe (q * 100) : ℚ) := by exact_mod_cast h1
  positivity

theorem round2_le_100 {q : ℚ} (h : q ≤ 100) : round2 q ≤ 100 := by
  unfold round2
  have h1 : rhe (q * 100) ≤ (10000 : ℤ) := rhe_le (by push_cast; linarith)
  rw [div_le_iff₀ (by norm_num : (0:ℚ) < 100)]
  calc ((rhe (q * 100) : ℤ) : ℚ) ≤ 10000 := by exact_mod_cast h1
    _ = 100 * 100 := by norm_num

theorem rhe_eq_low {q : ℚ} {n : ℤ} (h1 : (n:ℚ) ≤ q) (h2 : q < (n:ℚ) + 1/2) :
    rhe q = n := by
  have hf : ⌊q⌋ = n := Int.floor_eq_iff.mpr ⟨h1, by linarith⟩
  unfold rhe
  rw [hf, if_pos (by linarith)]

theorem rhe_eq_high {q : ℚ} {n : ℤ} (h1 : (n:ℚ) + 1/2 < q) (h2 : q < (n:ℚ) + 1) :
    rhe q = n + 1 := by
  have hf : ⌊q⌋ = n := Int.floor_eq_iff.mpr ⟨by linarith, by linarith⟩
  unfold rhe
  rw [hf, if_neg (by linarith), if_pos (by linarith)]

theorem round2_eq_low {q : ℚ} {n : ℤ} (h1 : (n:ℚ) ≤ q * 100)
    (h2 : q * 100 < (n:ℚ) + 1/2) : round2 q = (n : ℚ) / 100 := by
  unfold round2
  rw [rhe_eq_low h1 h2]

theorem round2_eq_high {q : ℚ} {n : ℤ} (h1 : (n:ℚ) + 1/2 < q * 100)
    (h2 : q * 100 < (n:ℚ) + 1) : round2 q = ((n : ℚ) + 1) / 100 := by
  unfold round2
  rw [rhe_eq_high h1 h2]
  push_cast
  ring

/-! ## Completeness (`EnterpriseDataAnalyzer.measure_completeness`)

Only the `score` field of the returned dict is embedded; per-column detail
entries do not feed any other computation. -/

/-- Total non-null cells of the frame (`df.notna().sum().sum()`). -/
def nonNullCells (df : DFrame) : ℕ := (df.cols.map nonNullCount).sum

/-- The Completeness dimension score:
`round(non_null_cells / total_cells * 100, 2)` with the `total_cells > 0`
guard defining the ratio as 0 for an empty frame (`df.size = rows * cols`). -/
def completeness_score (df : DFrame) : ℚ :=
  let totalCells : ℕ := df.nRows * df.cols.length
  let ratioPart : ℚ := if 0 < totalCells then (nonNullCells df : ℚ) / (totalCells : ℚ) else 0
  round2 (ratioPart * 100)

/-! ## Uniqueness (`EnterpriseDataAnalyzer.measure_uniqueness`) -/

/-- Row `i` of the frame, as the tuple of its cells across all columns. -/
def rowAt (df : DFrame) (i : ℕ) : List Cell := df.cols.map (cellAt i)

/-- All rows of the frame in order. -/
def rowList (df : DFrame) : List (List Cell) := (List.range df.nRows).map (rowAt df)

/-- Count rows equal to an earlier row, scanning left to right
(`DataFrame.duplicated(keep=first).sum()`). -/
def dupAux : List (List Cell) → List (List Cell) → ℕ
  | _, [] => 0
  | seen, r :: rs => (if r ∈ seen then 1 else 0) + dupAux (r :: seen) rs

/-- `self.df.duplicated().sum()`. pandas returns an empty boolean series when
the frame is empty (either axis of length 0), so the count is 0 then. -/
def dup_count (df : DFrame) : ℕ :=
  if df.nRows = 0 ∨ df.cols.isEmpty then 0 else dupAux [] (rowList df)

/-- `unique_rows = total_rows - duplicate_rows`. -/
def unique_rows (df : DFrame) : ℕ := df.nRows - dup_count df

/-- The Uniqueness dimension score: `round(unique_rows / total_rows * 100, 2)`
with the ratio defined as 0 when there are no rows. -/
def uniqueness_score (df : DFrame) : ℚ :=
  let ratioPart : ℚ :=
    if 0 < df.nRows then (unique_rows df : ℚ) / (df.nRows : ℚ) else 0
  round2 (ratioPart * 100)

/-! ## Validity (`EnterpriseDataAnalyzer.measure_validity`) -/

/-- The positivity keywords triggering the negative-value check. -/
def posKws : List String := ["age", "price", "amount", "quantity", "count", "size"]

/-- ASCII letter test for the email regex character classes. -/
def alphaCh (c : Char) : Bool := ('a' ≤ c && c ≤ 'z') || ('A' ≤ c && c ≤ 'Z')

/-- ASCII digit test. -/
def digitCh (c : Char) : Bool := '0' ≤ c && c ≤ '9'

/-- Character class `[a-zA-Z0-9._%+-]` (the local part of the email regex). -/
def localCh (c : Char) : Bool :=
  alphaCh c || digitCh c || c = '.' || c = '_' || c = '%' || c = '+' || c = '-'

/-- Character class `[a-zA-Z0-9.-]` (the domain part of the email regex). -/
def domCh (c : Char) : Bool := alphaCh c || digitCh c || c = '.' || c = '-'

/-- Matches the regex tail `\.[a-zA-Z]{2,}$`. -/
def tldPart : List Char → Bool
  | '.' :: t => decide (2 ≤ t.length) && t.all alphaCh
  | _ => false

/-- Matches `[a-zA-Z0-9.-]+\.[a-zA-Z]{2,}$` (with backtracking). -/
def domPart : List Char → Bool
  | [] => false
  | c :: rest => domCh c && (tldPart rest || domPart rest)

/-- After one or more local characters, expects `@` then the domain. -/
def afterLocal : List Char → Bool
  | '@' :: r => domPart r
  | _ => false

/-- The email-shape regex `^[a-zA-Z0-9._%+-]+@[a-zA-Z0-9.-]+\.[a-zA-Z]{2,}$`
used by the validity measurer, as a decidable matcher. -/
def emailMatch : List Char → Bool
  | [] => false
  | c :: rest => localCh c && (afterLocal rest || emailMatch rest)

/-- `(total_checks, passed_checks)` contributed by one column.  A column whose
non-null projection is empty is skipped entirely (`continue`).  Numeric
columns contribute the infinity check (counted only on float dtypes) and the
negative-value check (auto-passing without a positivity keyword); categorical
columns contribute the whitespace-only check plus optional email/phone
checks; datetime and bool columns contribute nothing. -/
def colChecks : Col → ℕ × ℕ
  | .num name isFloat data =>
    let vals := data.filterMap id
    if vals.isEmpty then (0, 0) else
    let infCount : ℕ := if isFloat then vals.countP NumVal.isInfVal else 0
    let p1 : ℕ := if 0 < infCount then 0 else 1
    let p2 : ℕ :=
      if hasKw posKws name then
        (if 0 < vals.countP NumVal.ltZero then 0 else 1)
      else 1
    (2, p1 + p2)
  | .cat name _ _ data =>
    let vals := (data.filterMap id).map CatCell.str
    if vals.isEmpty then (0, 0) else
    let wsP : ℕ := if 0 < vals.countP (fun s => trimStr s = "") then 0 else 1
    let hasEm := strContains (lowerStr name) "email"
    let emT : ℕ := if hasEm then 1 else 0
    let emP : ℕ :=
      if hasEm then
        (if 0 < vals.countP (fun s => !emailMatch s.toList) then 0 else 1)
      else 0
    let hasPh := strContains (lowerStr name) "phone" || strContains (lowerStr name) "mobile"
    let phT : ℕ := if hasPh then 1 else 0
    let phP : ℕ :=
      if hasPh then
        (if 0 < vals.countP (fun s => (s.toList.filter digitCh).length < 10) then 0 else 1)
      else 0
    (1 + emT + phT, wsP + emP + phP)
  | .dt _ _ => (0, 0)
  | .bool _ _ => (0, 0)

/-- `total_checks` accumulated over all columns. -/
def validity_total (df : DFrame) : ℕ := (df.cols.map (fun c => (colChecks c).1)).sum

/-- `passed_checks` accumulated over all columns. -/
def validity_passed (df : DFrame) : ℕ := (df.cols.map (fun c => (colChecks c).2)).sum

/-- The Validity dimension score:
`round((passed_checks / total_checks * 100) if total_checks > 0 else 100, 2)`. -/
def validity_score (df : DFrame) : ℚ :=
  round2 (if 0 < validity_total df then
    (validity_passed df : ℚ) / (validity_total df : ℚ) * 100
  else 100)

/-! ## Consistency (`EnterpriseDataAnalyzer.measure_consistency`)

The code walks the categorical columns once applying the case and whitespace
checks, then re-walks them for the date-format check, then walks the numeric
columns for the range check; each finding subtracts a fixed penalty from 100.
The penalties are summed here per check kind (addition is commutative). -/

/-- The date/time keywords shared by the consistency date-format check and the
timeliness date-column search (both use the same five keywords). -/
def dateKws : List String := ["date", "time", "timestamp", "created", "updated"]

/-- Insert into a list sorted ascending by the float order. -/
def insNum (x : NumVal) : List NumVal → List NumVal
  | [] => [x]
  | y :: ys => if x.leB y then x :: y :: ys else y :: insNum x ys

/-- Sort numeric values ascending (`Series.quantile` sorts before
interpolating). -/
def sortNum : List NumVal → List NumVal
  | [] => []
  | x :: xs => insNum x (sortNum xs)

/-- Linear-interpolation quantile of a non-empty value list, as computed by
`Series.quantile(q)` (numpy linear method): with `h = (n-1)*q`, lerp between
the floor and ceiling order statistics in IEEE arithmetic. -/
def quantileX (l : List NumVal) (q : ℚ) : XR :=
  match l with
  | [] => .nan
  | _ :: _ =>
    let s := sortNum l
    let h : ℚ := ((l.length : ℚ) - 1) * q
    let lo := (s.getD (⌊h⌋).toNat .inf).toXR
    let hi := (s.getD (⌈h⌉).toNat .inf).toXR
    lo.add (XR.scale (h - ⌊h⌋) (hi.sub lo))

/-- Case-inconsistency penalty (−2): distinct values collapse further under
lower-casing (`len({v.lower()}) < len(unique())`). -/
def casePen : Col → ℚ
  | .cat _ _ _ data =>
    let vals := (data.filterMap id).map CatCell.str
    let u := vals.dedup
    if ((u.map lowerStr).dedup).length < u.length then 2 else 0
  | _ => 0

/-- Whitespace penalty (−1): some value differs from its stripped form. -/
def wsPen : Col → ℚ
  | .cat _ _ _ data =>
    let vals := (data.filterMap id).map CatCell.str
    if vals.any (fun s => s ≠ trimStr s) then 1 else 0
  | _ => 0

/-- Date-format penalty (−5): a date-keyword-named categorical column with
non-null values whose strict `pd.to_datetime` parse raises. -/
def datePen : Col → ℚ
  | .cat name _ parseFails data =>
    if hasKw dateKws name ∧ ¬ (data.filterMap id).isEmpty ∧ parseFails then 5 else 0
  | _ => 0

/-- Range penalty (−3): for a numeric column with more than 10 non-null
values, more than 1% of them fall outside the 3×IQR extreme fence. -/
def rangePen : Col → ℚ
  | .num _ _ data =>
    let vals := data.filterMap id
    if 10 < vals.length then
      let q1 := quantileX vals (1/4)
      let q3 := quantileX vals (3/4)
      let iqr := q3.sub q1
      let loB := q1.sub (XR.scale 3 iqr)
      let hiB := q3.add (XR.scale 3 iqr)
      let extreme := vals.countP (fun v => XR.ltB v.toXR loB)
        + vals.countP (fun v => XR.ltB hiB v.toXR)
      if (vals.length : ℚ) * (1/100) < (extreme : ℚ) then 3 else 0
    else 0
  | _ => 0

/-- Total consistency penalty over all columns. -/
def consistency_penalty (df : DFrame) : ℚ :=
  (df.cols.map (fun c => casePen c + wsPen c)).sum
    + (df.cols.map datePen).sum + (df.cols.map rangePen).sum

/-- The Consistency dimension score: `max(0, round(100 - penalties, 2))`. -/
def consistency_score (df : DFrame) : ℚ :=
  max 0 (round2 (100 - consistency_penalty df))

/-! ## Accuracy (`EnterpriseDataAnalyzer.measure_accuracy`) -/

/-- Accuracy penalty for one numeric column (columns with fewer than 10
non-null values are skipped): with the 1.5×IQR fence, −5 if the outlier
percentage exceeds 5, −2 if it exceeds 2, else 0. -/
def accPen : Col → ℚ
  | .num _ _ data =>
    let vals := data.filterMap id
    if vals.length < 10 then 0 else
    let q1 := quantileX vals (1/4)
    let q3 := quantileX vals (3/4)
    let iqr := q3.sub q1
    let loB := q1.sub (XR.scale (3/2) iqr)
    let hiB := q3.add (XR.scale (3/2) iqr)
    let outliers := vals.countP (fun v => XR.ltB v.toXR loB || XR.ltB hiB v.toXR)
    let pct : ℚ := (outliers : ℚ) / (vals.length : ℚ) * 100
    if 5 < pct then 5 else if 2 < pct then 2 else 0
  | _ => 0

/-- The Accuracy dimension score: `max(0, round(100 - penalties, 2))`. -/
def accuracy_score (df : DFrame) : ℚ :=
  max 0 (round2 (100 - (df.cols.map accPen).sum))

/-! ## ML Readiness (`EnterpriseDataAnalyzer.measure_ml_readiness`)

Only the quantities feeding the score are embedded (correlation-pair count,
low-variance-feature count, severely-imbalanced-candidate count); the detail
lists carry no further computation.  `|pearson r| ≥ t` is decided by the
equivalent exact test `sxy² ≥ t²·sxx·syy` with positive variances, avoiding
the irrational square root; a NaN correlation (zero variance, no paired
observations, or non-finite values) compares false exactly as in pandas. -/

/-- The data lists of the numeric columns, in column order. -/
def numDataCols (df : DFrame) : List (List (Option NumVal)) :=
  df.cols.filterMap (fun c => match c with | .num _ _ d => some d | _ => none)

/-- Unordered column pairs `(i, j)` with `i < j`, in iteration order. -/
def pairsOf {α : Type} : List α → List (α × α)
  | [] => []
  | x :: xs => xs.map (fun y => (x, y)) ++ pairsOf xs

/-- Rows where both columns are non-null (pandas pairwise-complete `corr`). -/
def pairedVals (a b : List (Option NumVal)) (n : ℕ) : List (NumVal × NumVal) :=
  (List.range n).filterMap (fun i =>
    match a.getD i none, b.getD i none with
    | some x, some y => some (x, y)
    | _, _ => none)

/-- The finite rational carried by a numeric value, if any. -/
def finPart : NumVal → Option ℚ
  | .fin q => some q
  | _ => none

/-- Whether `|pearson r| ≥ t` holds for the paired data (false when the
correlation is NaN). -/
def highCorrAtLeast (t : ℚ) (ps : List (NumVal × NumVal)) : Bool :=
  if ps.isEmpty || ¬ (ps.all (fun p => p.1.isFinite && p.2.isFinite)) then false
  else
    let xq := ps.filterMap (fun p => finPart p.1)
    let yq := ps.filterMap (fun p => finPart p.2)
    let n : ℚ := (ps.length : ℚ)
    let mx := xq.sum / n
    let my := yq.sum / n
    let sxx := (xq.map (fun x => (x - mx) ^ 2)).sum
    let syy := (yq.map (fun y => (y - my) ^ 2)).sum
    let sxy := ((xq.zip yq).map (fun p => (p.1 - mx) * (p.2 - my))).sum
    decide ((0 : ℚ) < sxx) && decide ((0 : ℚ) < syy)
      && decide ((t ^ 2 * sxx * syy : ℚ) ≤ (sxy ^ 2 : ℚ))

/-- Number of numeric-column pairs with `|corr| ≥ 0.7` (each costs −3). -/
def high_corr_count (df : DFrame) : ℕ :=
  (pairsOf (numDataCols df)).countP
    (fun p => highCorrAtLeast (7/10) (pairedVals p.1 p.2 df.nRows))

/-- Whether a numeric column's sample variance (`Series.var()`, ddof = 1) is
below 0.01; NaN / infinite variances (fewer than 2 values or non-finite
data) compare false. -/
def lowVarFlag : Col → Bool
  | .num _ _ data =>
    let vals := data.filterMap id
    if vals.length < 2 || ¬ (vals.all NumVal.isFinite) then false
    else
      let q := vals.filterMap finPart
      let n : ℚ := (vals.length : ℚ)
      let m := q.sum / n
      decide ((q.map (fun x => (x - m) ^ 2)).sum / (n - 1) < 1/100)
  | _ => false

/-- Number of low-variance numeric features (each costs −5). -/
def low_var_count (df : DFrame) : ℕ := df.cols.countP lowVarFlag

/-- Whether a categorical column is a severely imbalanced candidate target:
2–20 distinct non-null values and majority/minority count ratio ≥ 10
(`value_counts` min is always positive for occurring values, so the
`inf` fallback branch is dead). -/
def severeFlag : Col → Bool
  | .cat _ _ _ data =>
    let vals := (data.filterMap id).map CatCell.str
    let u := vals.dedup
    if 2 ≤ u.length ∧ u.length ≤ 20 then
      match u.map (fun v => vals.count v) with
      | [] => false
      | c :: cs =>
        let mx := cs.foldl max c
        let mn := cs.foldl min c
        decide (0 < mn) && decide ((10 : ℚ) ≤ (mx : ℚ) / (mn : ℚ))
    else false
  | _ => false

/-- Number of severely imbalanced candidate targets (each costs −10). -/
def severe_count (df : DFrame) : ℕ := df.cols.countP severeFlag

/-- The ML Readiness score:
`max(0, 100 - 3*#high_corr - 5*#low_var - 10*#severely_imbalanced)`. -/
def ml_readiness_score (df : DFrame) : ℚ :=
  max 0 (100 - 3 * (high_corr_count df : ℚ) - 5 * (low_var_count df : ℚ)
    - 10 * (severe_count df : ℚ))

/-! ## Timeliness (`EnterpriseDataAnalyzer.measure_timeliness`)

Datetime values are modelled at day granularity (integers), so
`(now - max_date).days` is an exact integer subtraction against the `today`
parameter standing for `datetime.now()`.  Of each per-column analysis entry
only `days_since_latest` and `freshness` are kept (the earliest/latest date
strings and timespan feed nothing else). -/

/-- The datetime-typed columns' date series, in column order. -/
def dtColsData (df : DFrame) : List (List (Option Int)) :=
  df.cols.filterMap (fun c => match c with | .dt _ d => some d | _ => none)

/-- Date series of categorical columns that qualify as date columns: the name
carries a date keyword and coercing parse succeeds on more than 50% of the
rows. -/
def catDateData (df : DFrame) : List (List (Option Int)) :=
  df.cols.filterMap (fun c => match c with
    | .cat name _ _ data =>
      let parsed := data.map (fun o => o.bind CatCell.asDate)
      if hasKw dateKws name ∧
          ((df.nRows : ℚ) * (1/2) < (parsed.countP Option.isSome : ℚ)) then
        some parsed
      else none
    | _ => none)

/-- All date columns found: true datetime columns first, then qualifying
string columns, as in the code. -/
def date_cols_data (df : DFrame) : List (List (Option Int)) :=
  dtColsData df ++ catDateData df

/-- The freshness label, exactly as written in the code:
`"current" if days_old and days_old < 30 else "recent" if days_old and
days_old < 90 else "stale"` — note the Python truthiness guard `days_old`,
which is false for 0. -/
def freshness (d : Int) : String :=
  if d ≠ 0 ∧ d < 30 then "current"
  else if d ≠ 0 ∧ d < 90 then "recent"
  else "stale"

/-- The staleness penalty, with the same truthiness guard:
−20 beyond 365 days, −10 beyond 90 days. -/
def agePenalty (d : Int) : ℚ :=
  if d ≠ 0 ∧ 365 < d then 20
  else if d ≠ 0 ∧ 90 < d then 10
  else 0

/-- One per-analyzed-column entry of the timeliness report. -/
structure TimeEntry where
  daysSince : Int
  fresh : String
deriving DecidableEq

/-- Analysis entry and penalty for one date column; `none` when the column
has no valid dates (the code then records nothing and subtracts nothing). -/
def colEntry (today : Int) (ds : List (Option Int)) : Option (TimeEntry × ℚ) :=
  match ds.filterMap id with
  | [] => none
  | v :: vs =>
    let mx := vs.foldl max v
    let d := today - mx
    some (⟨d, freshness d⟩, agePenalty d)

/-- The timeliness result: score (None when no date column qualifies, in
which case the status is "unknown"), status, and per-column entries for up
to the first three date columns. -/
structure TimelinessResult where
  score : Option ℚ
  status : String
  analysis : List TimeEntry
deriving DecidableEq

/-- `EnterpriseDataAnalyzer.measure_timeliness`. -/
def measure_timeliness (today : Int) (df : DFrame) : TimelinessResult :=
  let dcs := date_cols_data df
  if dcs.isEmpty then ⟨none, "unknown", []⟩
  else
    let entries := (dcs.take 3).filterMap (colEntry today)
    let raw : ℚ := 100 - (entries.map Prod.snd).sum
    ⟨some (max 0 raw),
     if 80 ≤ raw then "pass" else if 60 ≤ raw then "warning" else "fail",
     entries.map Prod.fst⟩

/-! ## Overall score (`EnterpriseDataAnalyzer.calculate_overall_score`) -/

/-- The six dimension weights of the aggregator's `weights` dict. -/
structure Weights where
  completeness : ℚ
  uniqueness : ℚ
  validity : ℚ
  consistency : ℚ
  accuracy : ℚ
  timeliness : ℚ
deriving DecidableEq

/-- The fixed base weights. -/
def base_weights : Weights := ⟨0.25, 0.15, 0.15, 0.15, 0.20, 0.10⟩

/-- The redistribution performed when timeliness is unavailable: its weight is
zeroed and `0.10 / 5` is added to each of the other five. -/
def redistribute (w : Weights) : Weights :=
  ⟨w.completeness + 0.10 / 5, w.uniqueness + 0.10 / 5, w.validity + 0.10 / 5,
   w.consistency + 0.10 / 5, w.accuracy + 0.10 / 5, 0⟩

/-- `sum(scores[k] * weights[k] for k in scores)`: the `scores` dict contains
the five always-present dimensions plus timeliness only when its score is
not None, in which case the base weights are used unchanged. -/
def overall_score (today : Int) (df : DFrame) : ℚ :=
  let tl := (measure_timeliness today df).score
  let w := if tl.isSome then base_weights else redistribute base_weights
  w.completeness * completeness_score df + w.uniqueness * uniqueness_score df
    + w.validity * validity_score df + w.consistency * consistency_score df
    + w.accuracy * accuracy_score df
    + (match tl with | some t => w.timeliness * t | none => 0)

/-- The grade step function applied to the overall score. -/
def grade_of (s : ℚ) : String :=
  if 90 ≤ s then "A"
  else if 80 ≤ s then "B"
  else if 70 ≤ s then "C"
  else if 60 ≤ s then "D"
  else "F"

/-- The overall-score block of the report (score and grade; the rounded
display value `round(overall_score, 1)` and the descriptions are derived
presentation only). -/
structure OverallResult where
  overall : ℚ
  grade : String
deriving DecidableEq

/-- `calculate_overall_score`, restricted to the score and grade fields. -/
def calculate_overall_score (today : Int) (df : DFrame) : OverallResult :=
  ⟨overall_score today df, grade_of (overall_score today df)⟩

/-! ## Model recommender (`ModelRecommender`) and trainer task detection
(`ModelTrainer._detect_task_type`) -/

/-- The task type stored in the recommender's data profile. -/
inductive TaskKind where
  | classification
  | regression
  | unknown
deriving DecidableEq

/-- Distinct non-null value count of a column (`Series.nunique()`). -/
def nuniqueCol : Col → ℕ
  | .num _ _ d => (d.filterMap id).dedup.length
  | .cat _ _ _ d => ((d.filterMap id).map CatCell.str).dedup.length
  | .dt _ d => (d.filterMap id).dedup.length
  | .bool _ d => (d.filterMap id).dedup.length

/-- Column lookup by name (`self.df[name]`; names are assumed unique, the
first match is taken). -/
def findCol (df : DFrame) (t : String) : Option Col :=
  df.cols.find? (fun c => colName c = t)

/-- `dtype == 'object'`: an object-dtype (not category-dtype) column. -/
def isObjectDtype : Col → Bool
  | .cat _ isCategoryDtype _ _ => !isCategoryDtype
  | _ => false

/-- `dtype == 'object' or dtype.name == 'category'`. -/
def isCatColKind : Col → Bool
  | .cat _ _ _ _ => true
  | _ => false

/-- Whether the column is in the numeric bucket. -/
def isNumColKind : Col → Bool
  | .num _ _ _ => true
  | _ => false

/-- Occurrence counts of each distinct non-null value
(`value_counts`; normalization cancels in the max/min ratio). -/
def valueCountsOf : Col → List ℕ
  | .num _ _ d =>
    let v := d.filterMap id
    v.dedup.map (fun x => v.count x)
  | .cat _ _ _ d =>
    let v := (d.filterMap id).map CatCell.str
    v.dedup.map (fun x => v.count x)
  | .dt _ d =>
    let v := d.filterMap id
    v.dedup.map (fun x => v.count x)
  | .bool _ d =>
    let v := d.filterMap id
    v.dedup.map (fun x => v.count x)

/-- `value_counts.max() / value_counts.min() if value_counts.min() > 0 else
999` (999 also results from an all-null target, where both max and min are
NaN and the comparison is false). -/
def imbalanceRatioOf (c : Col) : ℚ :=
  match valueCountsOf c with
  | [] => 999
  | x :: xs =>
    let mx := xs.foldl max x
    let mn := xs.foldl min x
    if 0 < mn then (mx : ℚ) / (mn : ℚ) else 999

/-- The data profile computed by `ModelRecommender._analyze_data`, restricted
to the fields consumed by scoring and task detection (`memory_mb` and the
regression-branch mean/std/skewness feed only display text). -/
structure Profile where
  rows : ℕ
  ncols : ℕ
  numericColumns : ℕ
  categoricalColumns : ℕ
  datetimeColumns : ℕ
  hasMissing : Bool
  taskType : TaskKind
  numClasses : ℕ
  isImbalanced : Bool
  sizeCategory : String
deriving DecidableEq

/-- `ModelRecommender._analyze_data`.  The target branch requires a truthy
(non-empty) target name that is a column; the classification test is
`target.dtype == 'object' or target.nunique() <= 20` — with no
distinct-ratio condition and no category-dtype test. -/
def analyze_data (df : DFrame) (target : Option String) : Profile :=
  let sizeTotal : ℕ := df.nRows * df.cols.length
  let missingCells : ℕ := (df.cols.map nullCount).sum
  let hasMissing : Bool :=
    if sizeTotal = 0 then false
    else decide ((0 : ℚ) < (missingCells : ℚ) / (sizeTotal : ℚ) * 100)
  let tcol : Option Col :=
    match target with
    | some t => if t ≠ "" then findCol df t else none
    | none => none
  let task : TaskKind × ℕ × Bool :=
    match tcol with
    | some c =>
      if isObjectDtype c || decide (nuniqueCol c ≤ 20) then
        (.classification, nuniqueCol c, decide ((3 : ℚ) < imbalanceRatioOf c))
      else (.regression, 0, false)
    | none => (.unknown, 0, false)
  { rows := df.nRows
    ncols := df.cols.length
    numericColumns := df.cols.countP isNumColKind
    categoricalColumns := df.cols.countP isCatColKind
    datetimeColumns := df.cols.countP (fun c => match c with | .dt _ _ => true | _ => false)
    hasMissing := hasMissing
    taskType := task.1
    numClasses := task.2.1
    isImbalanced := task.2.2
    sizeCategory :=
      if df.nRows < 1000 then "small"
      else if df.nRows < 100000 then "medium"
      else "large" }

/-- `ModelTrainer._detect_task_type`.  `none` models the exceptions the code
raises: a `KeyError` for a missing column, and the `ZeroDivisionError` from
`unique_ratio = target.nunique() / len(target)` on an empty frame (reached
only for non-object, non-category dtypes). -/
def detect_task_type (df : DFrame) (t : String) : Option TaskKind :=
  match findCol df t with
  | none => none
  | some c =>
    if isCatColKind c then some .classification
    else if df.nRows = 0 then none
    else if nuniqueCol c ≤ 20 ∧
        (nuniqueCol c : ℚ) / (df.nRows : ℚ) < 0.05 then some .classification
    else some .regression

/-- Modelled from the spec: the task-type detection rule of §4.4 —
"classification if the column's storage type is non-numeric
(string/category), OR if numeric with ≤20 distinct values AND
distinct-value-count / row-count < 0.05; otherwise regression".  This is a
specification-side definition used to compare the two code-side detectors
against the spec's words. -/
def spec_task_type (df : DFrame) (t : String) : Option TaskKind :=
  (findCol df t).map (fun c =>
    if isCatColKind c then .classification
    else if isNumColKind c ∧ nuniqueCol c ≤ 20 ∧
        (nuniqueCol c : ℚ) / (df.nRows : ℚ) < 0.05 then .classification
    else .regression)

/-- The per-task model catalogues of `get_recommendations`, in iteration
order. -/
def available_models : TaskKind → List String
  | .classification =>
    ["xgboost", "lightgbm", "catboost", "random_forest",
     "logistic_regression", "gradient_boosting"]
  | .regression =>
    ["xgboost", "lightgbm", "catboost", "random_forest",
     "linear_regression", "gradient_boosting"]
  | .unknown => ["random_forest", "xgboost", "lightgbm"]

/-- The nine additive heuristic contributions of `_score_model`, one per
`if` statement, in source order. -/
def score_deltas (p : Profile) (m : String) : List ℚ :=
  [if m = "lightgbm" ∧ p.sizeCategory = "large" then 20 else 0,
   if m = "logistic_regression" ∧ p.sizeCategory = "small" then 15 else 0,
   if (m = "xgboost" ∨ m = "lightgbm" ∨ m = "catboost") ∧ p.sizeCategory = "medium"
     then 10 else 0,
   if m = "catboost" ∧ 3 < p.categoricalColumns then 25 else 0,
   if m = "lightgbm" ∧ 5 < p.categoricalColumns then 15 else 0,
   if p.hasMissing ∧ (m = "xgboost" ∨ m = "lightgbm" ∨ m = "catboost")
     then 10 else 0,
   if p.isImbalanced ∧ m = "xgboost" then 15 else 0,
   if m = "xgboost" ∨ m = "lightgbm" ∨ m = "catboost" then 10 else 0,
   if m = "logistic_regression" ∨ m = "linear_regression" then -5 else 0]

/-- `ModelRecommender._score_model`: base score 50 plus the heuristics,
accumulated in source order. -/
def score_model (p : Profile) (m : String) : ℚ :=
  ((((((((50
    + (if m = "lightgbm" ∧ p.sizeCategory = "large" then 20 else 0))
    + (if m = "logistic_regression" ∧ p.sizeCategory = "small" then 15 else 0))
    + (if (m = "xgboost" ∨ m = "lightgbm" ∨ m = "catboost") ∧ p.sizeCategory = "medium"
        then 10 else 0))
    + (if m = "catboost" ∧ 3 < p.categoricalColumns then 25 else 0))
    + (if m = "lightgbm" ∧ 5 < p.categoricalColumns then 15 else 0))
    + (if p.hasMissing ∧ (m = "xgboost" ∨ m = "lightgbm" ∨ m = "catboost")
        then 10 else 0))
    + (if p.isImbalanced ∧ m = "xgboost" then 15 else 0))
    + (if m = "xgboost" ∨ m = "lightgbm" ∨ m = "catboost" then 10 else 0))
    + (if m = "logistic_regression" ∨ m = "linear_regression" then -5 else 0)

/-- The before-relation of Python's stable descending sort on (model, score)
pairs: `a` may come before `b` iff `b`'s score does not exceed `a`'s. -/
def recGE (a b : String × ℚ) : Prop := b.2 ≤ a.2

instance : DecidableRel recGE := fun a b => inferInstanceAs (Decidable (b.2 ≤ a.2))

instance : IsTotal (String × ℚ) recGE := ⟨fun a b => le_total b.2 a.2⟩

instance : IsTrans (String × ℚ) recGE := ⟨fun _ _ _ h1 h2 => le_trans h2 h1⟩

/-- `sorted(scores.items(), key=score, reverse=True)`: a stable descending
sort (Python's sort is stable; `insertionSort` with this relation inserts
each earlier element before later equal-scored ones, which is the same
stable order). -/
def sortScoredDesc (l : List (String × ℚ)) : List (String × ℚ) :=
  List.insertionSort recGE l

/-- One returned recommendation, restricted to the fields the ranking claims
are about (the catalogue metadata and justification text are display-only). -/
structure Rec where
  id : String
  rank : ℕ
  score : ℚ
deriving DecidableEq

/-- Attach 1-based ranks by list position (`info["rank"] = i + 1`). -/
def rankRecs (l : List (String × ℚ)) : List Rec :=
  l.enum.map (fun p => ⟨p.2.1, p.1 + 1, p.2.2⟩)

/-- The `(model, score)` list in catalogue iteration order. -/
def scoredList (df : DFrame) (target : Option String) : List (String × ℚ) :=
  let p := analyze_data df target
  (available_models p.taskType).map (fun m => (m, score_model p m))

/-- `ModelRecommender.get_recommendations`: score the applicable catalogue,
sort descending (stable), truncate to `top_n` and attach ranks. -/
def get_recommendations (df : DFrame) (target : Option String) (top_n : ℕ) :
    List Rec :=
  rankRecs ((sortScoredDesc (scoredList df target)).take top_n)

/-! ## Concrete frames used as counterexamples and witnesses -/

/-- One datetime column whose only date is `today` itself (days old = 0). -/
def fresh_today_df : DFrame := ⟨1, [Col.dt "ts" [some 100]]⟩

/-- C5: the spec's freshness rule says "current" strictly below 30 days, but
the code's Python-truthiness guard `days_old and days_old < 30` makes a
column whose latest date is today (`days_since_latest = 0`) fall through
both branches and be reported "stale".  The boundary behaviour everywhere
else (1, 29 → current; 30, 89 → recent; 90 → stale) matches the spec. -/
theorem freshness_zero_days_reported_stale :
    (measure_timeliness 100 fresh_today_df).analysis = [⟨0, "stale"⟩]
    ∧ freshness 0 = "stale"
    ∧ freshness 1 = "current" ∧ freshness 29 = "current"
    ∧ freshness 30 = "recent" ∧ freshness 89 = "recent"
    ∧ freshness 90 = "stale" ∧ freshness 400 = "stale" := by
  refine ⟨by decide, by decide, by decide, by decide, by decide, by decide,
    by decide, by decide⟩

/-- C6: the letter grade is the pure step function of the (unrounded) overall
score with boundaries at 90/80/70/60, including the spec's four boundary
test points. -/
theorem grade_step_function_ok :
    (∀ (today : Int) (df : DFrame), (calculate_overall_score today df).grade =
      grade_of ((calculate_overall_score today df).overall))
    ∧ (∀ s : ℚ, (grade_of s = "A" ↔ 90 ≤ s))
    ∧ (∀ s : ℚ, (grade_of s = "B" ↔ 80 ≤ s ∧ s < 90))
    ∧ (∀ s : ℚ, (grade_of s = "C" ↔ 70 ≤ s ∧ s < 80))
    ∧ (∀ s : ℚ, (grade_of s = "D" ↔ 60 ≤ s ∧ s < 70))
    ∧ (∀ s : ℚ, (grade_of s = "F" ↔ s < 60))
    ∧ grade_of (89.99 : ℚ) = "B" ∧ grade_of 90 = "A"
    ∧ grade_of (69.99 : ℚ) = "D" ∧ grade_of 70 = "C" := by
  refine ⟨fun today df => rfl, ?_, ?_, ?_, ?_, ?_, by norm_num [grade_of],
    by norm_num [grade_of], by norm_num [grade_of], by norm_num [grade_of]⟩ <;>
    intro s <;> unfold grade_of <;> split_ifs <;> simp_all <;>
    first
      | linarith
      | (intro; linarith)

/-- C3: the overall score is the weighted sum of the six classic dimension
scores with base weights 0.25/0.15/0.15/0.15/0.20/0.10; when Timeliness is
null each remaining weight gains exactly 0.02, Timeliness is excluded, and
the five effective weights sum to exactly 1. -/
theorem overall_weighted_sum (today : Int) (df : DFrame) :
    (overall_score today df =
      match (measure_timeliness today df).score with
      | some t =>
        0.25 * completeness_score df + 0.15 * uniqueness_score df
          + 0.15 * validity_score df + 0.15 * consistency_score df
          + 0.20 * accuracy_score df + 0.10 * t
      | none =>
        (0.25 + 0.02) * completeness_score df + (0.15 + 0.02) * uniqueness_score df
          + (0.15 + 0.02) * validity_score df + (0.15 + 0.02) * consistency_score df
          + (0.20 + 0.02) * accuracy_score df)
    ∧ redistribute base_weights = ⟨0.27, 0.17, 0.17, 0.17, 0.22, 0⟩
    ∧ (redistribute base_weights).completeness + (redistribute base_weights).uniqueness
        + (redistribute base_weights).validity + (redistribute base_weights).consistency
        + (redistribute base_weights).accuracy = 1 := by
  refine ⟨?_, by norm_num [redistribute, base_weights], by norm_num [redistribute, base_weights]⟩
  unfold overall_score
  cases h : (measure_timeliness today df).score with
  | none => simp only [h, Option.isSome_none, Bool.false_eq_true, if_false]
            norm_num [redistribute, base_weights]
  | some t => simp only [h, Option.isSome_some, if_true]
              norm_num [base_weights]

/-! ## Claims about empty input and the uniqueness formula -/

theorem round2_zero : round2 0 = 0 := by
  rw [round2_eq_low (n := 0) (by norm_num) (by norm_num)]
  norm_num

theorem round2_hundred : round2 100 = 100 := by
  rw [round2_eq_low (n := 10000) (by norm_num) (by norm_num)]
  norm_num

theorem dupAux_le (l : List (List Cell)) :
    ∀ seen, dupAux seen l ≤ l.length := by
  induction l with
  | nil => intro seen; simp [dupAux]
  | cons r rs ih =>
    intro seen
    have := ih (r :: seen)
    unfold dupAux
    split_ifs <;> simp <;> omega

theorem rowList_length (df : DFrame) : (rowList df).length = df.nRows := by
  simp [rowList]

theorem dup_count_le (df : DFrame) : dup_count df ≤ df.nRows := by
  unfold dup_count
  split_ifs with h
  · omega
  · have := dupAux_le (rowList df) []
    rwa [rowList_length df] at this

theorem dupAux_add_card (l : List (List Cell)) :
    ∀ seen, dupAux seen l + (l.toFinset \ seen.toFinset).card = l.length := by
  induction l with
  | nil => intro seen; simp [dupAux]
  | cons r rs ih =>
    intro seen
    unfold dupAux
    by_cases hr : r ∈ seen
    · have h1 : (r :: rs).toFinset \ seen.toFinset = rs.toFinset \ seen.toFinset := by
        rw [List.toFinset_cons, Finset.insert_sdiff_of_mem _ (List.mem_toFinset.mpr hr)]
      have h2 := ih (r :: seen)
      rw [List.toFinset_cons, Finset.insert_eq_self.mpr (List.mem_toFinset.mpr hr)] at h2
      rw [if_pos hr, h1]
      simp only [List.length_cons]
      omega
    · have h2 := ih (r :: seen)
      rw [List.toFinset_cons, Finset.sdiff_insert] at h2
      have h1 : (r :: rs).toFinset \ seen.toFinset =
          insert r (rs.toFinset \ seen.toFinset) := by
        rw [List.toFinset_cons, Finset.insert_sdiff_of_not_mem]
        exact fun hm => hr (List.mem_toFinset.mp hm)
      rw [if_neg hr, h1]
      simp only [List.length_cons]
      by_cases hrs : r ∈ rs.toFinset \ seen.toFinset
      · rw [Finset.insert_eq_self.mpr hrs]
        have hcard := Finset.card_erase_of_mem hrs
        have hpos : 0 < (rs.toFinset \ seen.toFinset).card :=
          Finset.card_pos.mpr ⟨r, hrs⟩
        omega
      · rw [Finset.card_insert_of_not_mem hrs, Finset.erase_eq_of_not_mem hrs] at *
        omega

/-- Duplicate rows and distinct rows partition the row count. -/
theorem dup_count_add_distinct (df : DFrame) (hc : ¬ df.cols.isEmpty) :
    dup_count df + (rowList df).toFinset.card = df.nRows := by
  unfold dup_count
  rcases Nat.eq_zero_or_pos df.nRows with h0 | hp
  · have : rowList df = [] := by simp [rowList, h0]
    simp [h0, hc, this]
  · rw [if_neg (by simp [hc]; omega)]
    have := dupAux_add_card (rowList df) []
    simpa [rowList_length df] using this

/-- A one-row, zero-column frame (pandas allows row index without columns). -/
def empty_cols_df : DFrame := ⟨1, []⟩

/-- C9 counterexample: on a frame with one row and zero columns the division
guards do define both ratios, but `duplicated()` on an empty frame reports
no duplicates, so the Uniqueness score is 100, not the claimed 0 (the row
count is positive and no row is a duplicate, so the ratio is 1). -/
theorem empty_cols_uniqueness_not_zero :
    completeness_score empty_cols_df = 0
    ∧ uniqueness_score empty_cols_df = 100
    ∧ uniqueness_score empty_cols_df ≠ 0 := by
  have h1 : completeness_score empty_cols_df = 0 := by
    unfold completeness_score empty_cols_df nonNullCells
    norm_num [round2_zero]
  have h2 : uniqueness_score empty_cols_df = 100 := by
    unfold uniqueness_score unique_rows dup_count empty_cols_df
    norm_num [round2_hundred]
  exact ⟨h1, h2, by rw [h2]; norm_num⟩

/-- C9 amended: with zero rows both scores are the defined-as-zero ratio 0;
with zero columns Completeness is 0, while Uniqueness is 100 whenever there
is at least one row (no duplicates are found in an empty frame); no division
is ever attempted with a zero denominator. -/
theorem empty_input_defined_scores (df : DFrame) :
    (df.nRows = 0 → completeness_score df = 0 ∧ uniqueness_score df = 0)
    ∧ (df.cols = [] → completeness_score df = 0)
    ∧ (df.cols = [] → 0 < df.nRows → uniqueness_score df = 100) := by
  refine ⟨fun h0 => ⟨?_, ?_⟩, fun hc => ?_, fun hc hp => ?_⟩
  · unfold completeness_score
    rw [h0]
    simpa using round2_zero
  · unfold uniqueness_score
    rw [h0]
    simpa using round2_zero
  · unfold completeness_score
    rw [hc]
    simpa using round2_zero
  · unfold uniqueness_score unique_rows dup_count
    rw [hc]
    simp only [List.isEmpty_nil, or_true, if_true, Nat.sub_zero, if_pos hp]
    rw [div_self (by exact_mod_cast hp.ne' : (df.nRows : ℚ) ≠ 0)]
    simpa using round2_hundred

theorem empty_input_defined_scores_witness :
    completeness_score ⟨0, []⟩ = 0 ∧ uniqueness_score ⟨0, []⟩ = 0 :=
  (empty_input_defined_scores ⟨0, []⟩).1 rfl

/-- Three rows over one column, the third row duplicating the first. -/
def dup_row_df : DFrame :=
  ⟨3, [Col.cat "a" false false
    [some ⟨"x", none⟩, some ⟨"y", none⟩, some ⟨"x", none⟩]]⟩

/-- C7 counterexample: for N = 3 with exactly one duplicated row the reported
score is the two-decimal rounding 66.67, which differs from the exact value
(N−1)/N × 100 = 200/3 claimed by the spec sentence read literally. -/
theorem uniqueness_exact_formula_fails :
    dup_count dup_row_df = 1 ∧ dup_row_df.nRows = 3
    ∧ uniqueness_score dup_row_df = 6667 / 100
    ∧ uniqueness_score dup_row_df ≠ (3 - 1 : ℚ) / 3 * 100 := by
  have hd : dup_count dup_row_df = 1 := by decide
  have hu : unique_rows dup_row_df = 2 := by
    unfold unique_rows
    rw [hd, show dup_row_df.nRows = 3 from rfl]
  have hs : uniqueness_score dup_row_df = 6667 / 100 := by
    unfold uniqueness_score
    rw [hu, show dup_row_df.nRows = 3 from rfl]
    norm_num
    rw [round2_eq_high (n := 6666) (by norm_num) (by norm_num)]
    norm_num
  exact ⟨hd, rfl, hs, by rw [hs]; norm_num⟩

/-- C7 amended: on a non-empty dataset the Uniqueness score equals
(rows − duplicates) / rows × 100 rounded to two decimals, where the
duplicate count complements the number of distinct rows; in particular with
exactly one duplicated row it is round2((N−1)/N × 100). -/
theorem uniqueness_formula (df : DFrame) (hp : 0 < df.nRows) :
    uniqueness_score df =
      round2 (((df.nRows - dup_count df : ℕ) : ℚ) / (df.nRows : ℚ) * 100)
    ∧ (¬ df.cols.isEmpty → dup_count df + (rowList df).toFinset.card = df.nRows)
    ∧ (dup_count df = 1 →
        uniqueness_score df = round2 (((df.nRows : ℚ) - 1) / (df.nRows : ℚ) * 100)) := by
  have hmain : uniqueness_score df =
      round2 (((df.nRows - dup_count df : ℕ) : ℚ) / (df.nRows : ℚ) * 100) := by
    unfold uniqueness_score unique_rows
    rw [if_pos hp]
  refine ⟨hmain, dup_count_add_distinct df, fun h1 => ?_⟩
  rw [hmain, h1]
  congr 1
  have hle : 1 ≤ df.nRows := by
    have := dup_count_le df
    omega
  have : ((df.nRows - 1 : ℕ) : ℚ) = (df.nRows : ℚ) - 1 := by
    push_cast [hle]
    ring
  rw [this]

theorem uniqueness_formula_witness :
    uniqueness_score dup_row_df =
      round2 (((dup_row_df.nRows : ℚ) - 1) / (dup_row_df.nRows : ℚ) * 100) :=
  ((uniqueness_formula dup_row_df (by decide)).2.2 (by decide))


/-! ## Claims about the recommender: missing target and task detection -/

/-- A 3-row frame with a single numeric column "a" (no missing values). -/
def no_target_df : DFrame :=
  ⟨3, [Col.num "a" false [some (.fin 1), some (.fin 2), some (.fin 3)]]⟩

/-- C2 counterexample: asking for recommendations against the absent column
"zzz" produces no typed failure at all — the profile's task type silently
becomes `unknown` and an ordinary ranked recommendation list over the
fallback catalogue is returned (scores 60/60/50, ranks 1..3). -/
theorem missing_target_returns_ranked_list :
    (analyze_data no_target_df (some "zzz")).taskType = TaskKind.unknown
    ∧ get_recommendations no_target_df (some "zzz") 3 =
        [⟨"xgboost", 1, 60⟩, ⟨"lightgbm", 2, 60⟩, ⟨"random_forest", 3, 50⟩] := by
  have htask : (analyze_data no_target_df (some "zzz")).taskType = TaskKind.unknown := by
    decide
  have hsize : (analyze_data no_target_df (some "zzz")).sizeCategory = "small" := by
    decide
  have hcat : (analyze_data no_target_df (some "zzz")).categoricalColumns = 0 := by
    decide
  have himb : (analyze_data no_target_df (some "zzz")).isImbalanced = false := by
    decide
  have hm : (analyze_data no_target_df (some "zzz")).hasMissing = false := by
    unfold analyze_data no_target_df
    norm_num [nullCount, List.countP_cons, List.countP_nil]
  have hscored : scoredList no_target_df (some "zzz") =
      [("random_forest", 50), ("xgboost", 60), ("lightgbm", 60)] := by
    unfold scoredList
    simp only [htask, available_models, List.map_cons, List.map_nil]
    norm_num +decide [score_model, hsize, hcat, hm, himb]
  refine ⟨htask, ?_⟩
  unfold get_recommendations
  rw [hscored]
  norm_num +decide [sortScoredDesc, List.insertionSort, List.orderedInsert, recGE,
    rankRecs, List.enum, List.enumFrom]

/-- C2 amended: when the requested target column is absent the recommender
does not default to another column and does not raise; the data profile's
task type is "unknown" and `get_recommendations` returns the ordinary
ranked list obtained by scoring the fallback catalogue
[random_forest, xgboost, lightgbm]. -/
theorem missing_target_unknown_fallback (df : DFrame) (t : String) (n : ℕ)
    (h : findCol df t = none) :
    (analyze_data df (some t)).taskType = TaskKind.unknown
    ∧ get_recommendations df (some t) n =
        rankRecs ((sortScoredDesc ((available_models TaskKind.unknown).map
          (fun m => (m, score_model (analyze_data df (some t)) m)))).take n) := by
  have htask : (analyze_data df (some t)).taskType = TaskKind.unknown := by
    unfold analyze_data
    by_cases ht : t = ""
    · simp [ht]
    · simp [ht, h]
  refine ⟨htask, ?_⟩
  unfold get_recommendations scoredList
  simp only [htask]

theorem missing_target_unknown_fallback_witness :
    (analyze_data no_target_df (some "zzz")).taskType = TaskKind.unknown :=
  (missing_target_unknown_fallback no_target_df "zzz" 3 (by decide)).1

/-- The target column of the C1 counterexample: numeric, 10 rows, 5 distinct
values, so distinct/rows = 0.5 ≥ 0.05. -/
def ratio_gap_col : Col :=
  Col.num "y" false
    [some (.fin 1), some (.fin 2), some (.fin 3), some (.fin 4), some (.fin 5),
     some (.fin 1), some (.fin 2), some (.fin 3), some (.fin 4), some (.fin 5)]

/-- The C1 counterexample frame. -/
def ratio_gap_df : DFrame := ⟨10, [ratio_gap_col]⟩

/-- C1 counterexample: on a numeric target with 5 distinct values out of 10
rows the recommender (which tests only `nunique ≤ 20`) says classification,
while the trainer's detector and the spec's rule (which also require
distinct/rows < 0.05) say regression — the two detectors disagree, and the
recommender does not implement the spec's detection rule. -/
theorem task_type_detectors_disagree :
    (analyze_data ratio_gap_df (some "y")).taskType = TaskKind.classification
    ∧ detect_task_type ratio_gap_df "y" = some TaskKind.regression
    ∧ spec_task_type ratio_gap_df "y" = some TaskKind.regression := by
  have hfind : findCol ratio_gap_df "y" = some ratio_gap_col := by decide
  have hnu : nuniqueCol ratio_gap_col = 5 := by decide
  have hkind : isCatColKind ratio_gap_col = false := by decide
  refine ⟨by decide, ?_, ?_⟩
  · unfold detect_task_type
    rw [hfind]
    simp only [hkind, hnu, Bool.false_eq_true, if_false]
    rw [if_neg (by decide),
      if_neg (by rintro ⟨-, h2⟩; norm_num [ratio_gap_df] at h2)]
  · unfold spec_task_type
    simp only [hfind, Option.map_some', hkind, hnu, Bool.false_eq_true, if_false]
    rw [if_neg (by rintro ⟨-, -, h2⟩; norm_num [ratio_gap_df] at h2)]

/-- C1 amended: restricted to targets of string/category or numeric storage
type on a non-empty dataset, the trainer's `_detect_task_type` implements
exactly the spec's detection rule; the recommender's `_analyze_data`
instead computes classification iff the dtype is `object` or the distinct
count is at most 20 (no distinct/row-count ratio condition, no
category-dtype test), so the two agree only where those rules coincide. -/
theorem task_type_detection_amended (df : DFrame) (t : String) (c : Col)
    (hc : findCol df t = some c) (hr : 0 < df.nRows)
    (hk : isCatColKind c = true ∨ isNumColKind c = true) :
    detect_task_type df t = spec_task_type df t
    ∧ (t ≠ "" → (analyze_data df (some t)).taskType =
        (if isObjectDtype c || decide (nuniqueCol c ≤ 20) then TaskKind.classification
         else TaskKind.regression)) := by
  refine ⟨?_, fun ht => ?_⟩
  · unfold detect_task_type spec_task_type
    rw [hc]
    simp only [Option.map_some']
    rcases hk with hcat | hnum
    · rw [if_pos hcat, if_pos hcat]
    · have hcat' : isCatColKind c = false := by
        cases c <;> simp_all [isCatColKind, isNumColKind]
      simp only [hcat', Bool.false_eq_true, if_false, hnum,
        if_neg (by omega : ¬ df.nRows = 0), true_and]
      split_ifs <;> rfl
  · unfold analyze_data
    by_cases hio : (isObjectDtype c || decide (nuniqueCol c ≤ 20)) = true
    · simp [hc, ht, hio]
    · simp [hc, ht, hio]

/-- A two-row frame whose target column is categorical. -/
def cat_target_col : Col :=
  Col.cat "c" false false [some ⟨"a", none⟩, some ⟨"b", none⟩]

/-- Frame for the C1 witness. -/
def cat_target_df : DFrame := ⟨2, [cat_target_col]⟩

theorem task_type_detection_amended_witness :
    detect_task_type cat_target_df "c" = spec_task_type cat_target_df "c" :=
  (task_type_detection_amended cat_target_df "c" cat_target_col (by decide)
    (by decide) (Or.inl (by decide))).1

/-! ## C10: validity check counting for numeric columns -/

/-- C10: a numeric column with at least one non-null value contributes
exactly two checks to `total_checks` — the infinity check and the
negative-value check — whatever its dtype; when its name carries no
positivity keyword the negative-value check is unconditionally counted as
passed, so the column adds exactly `1 + (infinity check passed)` to
`passed_checks`, in particular at least 1. -/
theorem validity_numeric_two_checks (name : String) (isFloat : Bool)
    (data : List (Option NumVal)) (hne : ¬ (data.filterMap id).isEmpty) :
    (colChecks (Col.num name isFloat data)).1 = 2
    ∧ (hasKw posKws name = false →
        (colChecks (Col.num name isFloat data)).2 =
          (if 0 < (if isFloat then (data.filterMap id).countP NumVal.isInfVal else 0)
            then 0 else 1) + 1
        ∧ 1 ≤ (colChecks (Col.num name isFloat data)).2) := by
  simp only [colChecks, if_neg hne]
  refine ⟨trivial, fun hkw => ?_⟩
  simp only [hkw, Bool.false_eq_true, if_false]
  refine ⟨trivial, ?_⟩
  split_ifs <;> omega

theorem validity_numeric_two_checks_witness :
    (colChecks (Col.num "foo" false [some (NumVal.fin 1)])).1 = 2
    ∧ 1 ≤ (colChecks (Col.num "foo" false [some (NumVal.fin 1)])).2 :=
  ⟨(validity_numeric_two_checks "foo" false [some (NumVal.fin 1)] (by decide)).1,
   ((validity_numeric_two_checks "foo" false [some (NumVal.fin 1)]
      (by decide)).2 (by decide)).2⟩

/-! ## C8: additive scoring and stable descending ranking -/

theorem rankRecs_length (l : List (String × ℚ)) : (rankRecs l).length = l.length := by
  unfold rankRecs
  rw [List.length_map, List.enum_length]

theorem rankRecs_score_map (l : List (String × ℚ)) :
    (rankRecs l).map Rec.score = l.map Prod.snd := by
  unfold rankRecs
  rw [List.map_map]
  have h2 : (Rec.score ∘ fun p : ℕ × String × ℚ => (⟨p.2.1, p.1 + 1, p.2.2⟩ : Rec))
      = Prod.snd ∘ Prod.snd := rfl
  rw [h2, ← List.map_map, List.enum_map_snd]

theorem rankRecs_rank_map (l : List (String × ℚ)) :
    (rankRecs l).map Rec.rank = List.range' 1 l.length := by
  unfold rankRecs
  rw [List.map_map]
  have h2 : (Rec.rank ∘ fun p : ℕ × String × ℚ => (⟨p.2.1, p.1 + 1, p.2.2⟩ : Rec))
      = (fun i => i + 1) ∘ Prod.fst := rfl
  rw [h2, ← List.map_map, List.enum_map_fst, List.range'_eq_map_range]
  exact List.map_congr_left (fun i _ => Nat.add_comm i 1)

theorem sortScoredDesc_sorted (l : List (String × ℚ)) :
    List.Pairwise recGE (sortScoredDesc l) :=
  List.sorted_insertionSort recGE l

theorem sortScoredDesc_perm (l : List (String × ℚ)) :
    (sortScoredDesc l).Perm l :=
  List.perm_insertionSort recGE l

/-- Stability of the descending sort: the ties at any given score keep their
original (catalogue) order, expressed as filter-invariance. -/
theorem sortScoredDesc_stable (l : List (String × ℚ)) (c : ℚ) :
    (sortScoredDesc l).filter (fun e => e.2 = c) = l.filter (fun e => e.2 = c) := by
  have hmemA : ∀ x ∈ l.filter (fun e => e.2 = c), x.2 = c := by
    intro x hx
    have := List.of_mem_filter hx
    simpa using this
  have hpw : (l.filter (fun e => e.2 = c)).Pairwise recGE := by
    apply List.pairwise_of_forall_mem_list
    intro a ha b hb
    unfold recGE
    rw [hmemA a ha, hmemA b hb]
  have hsub : List.Sublist (l.filter (fun e => e.2 = c)) (sortScoredDesc l) :=
    List.sublist_insertionSort hpw (List.filter_sublist l)
  have hAeq : (l.filter (fun e => e.2 = c)).filter (fun e => e.2 = c)
      = l.filter (fun e => e.2 = c) :=
    List.filter_eq_self.mpr (fun a ha => by simp [hmemA a ha])
  have hsub2 : List.Sublist (l.filter (fun e => e.2 = c))
      ((sortScoredDesc l).filter (fun e => e.2 = c)) := by
    have := hsub.filter (fun e => e.2 = c)
    rwa [hAeq] at this
  have hperm : ((sortScoredDesc l).filter (fun e => e.2 = c)).Perm
      (l.filter (fun e => e.2 = c)) :=
    (sortScoredDesc_perm l).filter _
  exact (hsub2.eq_of_length hperm.length_eq.symm).symm

/-- C8: each applicable model's score is the base 50 plus the sum of the nine
independent additive heuristic deltas (the total is invariant under any
evaluation order); the returned list is the stable descending sort of the
catalogue-ordered scored list truncated to top-N, so scores are descending,
ranks are the 1-based positions, and ties keep catalogue iteration order. -/
theorem recommendation_ranking (df : DFrame) (target : Option String) (n : ℕ) :
    (∀ (p : Profile) (m : String), score_model p m = 50 + (score_deltas p m).sum)
    ∧ (∀ (p : Profile) (m : String) (l : List ℚ), l.Perm (score_deltas p m) →
        score_model p m = 50 + l.sum)
    ∧ List.Pairwise (fun a b : ℚ => b ≤ a)
        ((get_recommendations df target n).map Rec.score)
    ∧ (get_recommendations df target n).map Rec.rank =
        List.range' 1 (get_recommendations df target n).length
    ∧ (∀ c : ℚ, (sortScoredDesc (scoredList df target)).filter (fun e => e.2 = c)
        = (scoredList df target).filter (fun e => e.2 = c))
    ∧ get_recommendations df target n =
        rankRecs ((sortScoredDesc (scoredList df target)).take n) := by
  have hadd : ∀ (p : Profile) (m : String),
      score_model p m = 50 + (score_deltas p m).sum := by
    intro p m
    simp only [score_model, score_deltas, List.sum_cons, List.sum_nil]
    ring
  refine ⟨hadd, fun p m l hl => ?_, ?_, ?_, sortScoredDesc_stable _, rfl⟩
  · rw [hadd p m, hl.sum_eq]
  · unfold get_recommendations
    rw [rankRecs_score_map, List.pairwise_map]
    exact List.Pairwise.sublist (List.take_sublist n _)
      (sortScoredDesc_sorted (scoredList df target))
  · unfold get_recommendations
    rw [rankRecs_rank_map, rankRecs_length]

theorem recommendation_ranking_witness :
    (get_recommendations no_target_df (some "zzz") 3).map Rec.rank =
      List.range' 1 (get_recommendations no_target_df (some "zzz") 3).length
    ∧ score_model (analyze_data no_target_df (some "zzz")) "xgboost" =
      50 + ([0, 0, 0, 0, 0, 0, 0, 10, 0] : List ℚ).sum := by
  refine ⟨(recommendation_ranking no_target_df (some "zzz") 3).2.2.2.1, ?_⟩
  apply (recommendation_ranking no_target_df (some "zzz") 3).2.1
  have hm : (analyze_data no_target_df (some "zzz")).hasMissing = false := by
    unfold analyze_data no_target_df
    norm_num [nullCount, List.countP_cons, List.countP_nil]
  have hsize : (analyze_data no_target_df (some "zzz")).sizeCategory = "small" := by decide
  have hcat : (analyze_data no_target_df (some "zzz")).categoricalColumns = 0 := by decide
  have himb : (analyze_data no_target_df (some "zzz")).isImbalanced = false := by decide
  have hdel : score_deltas (analyze_data no_target_df (some "zzz")) "xgboost"
      = [0, 0, 0, 0, 0, 0, 0, 10, 0] := by
    norm_num +decide [score_deltas, hm, hsize, hcat, himb]
  rw [hdel]

/-! ## C4: every dimension score lies in [0, 100] -/

/-- A score lies in the closed interval [0, 100]. -/
def score_in_range (q : ℚ) : Prop := 0 ≤ q ∧ q ≤ 100

theorem round2_range {q : ℚ} (h0 : 0 ≤ q) (h1 : q ≤ 100) :
    score_in_range (round2 q) :=
  ⟨round2_nonneg h0, round2_le_100 h1⟩

theorem max0_round2_range {x : ℚ} (h : x ≤ 100) :
    score_in_range (max 0 (round2 x)) :=
  ⟨le_max_left _ _, max_le (by norm_num) (round2_le_100 h)⟩

theorem nonNullCount_le (c : Col) : nonNullCount c ≤ colDataLen c := by
  cases c <;> simpa [nonNullCount, colDataLen] using List.countP_le_length _

theorem nonNullCells_le (df : DFrame) (hwf : WFd df) :
    nonNullCells df ≤ df.nRows * df.cols.length := by
  unfold nonNullCells
  calc (df.cols.map nonNullCount).sum
      ≤ (df.cols.map (fun _ => df.nRows)).sum := by
        apply List.sum_le_sum
        intro c hc
        calc nonNullCount c ≤ colDataLen c := nonNullCount_le c
          _ = df.nRows := hwf c hc
    _ = df.cols.length * df.nRows := by
        rw [List.map_const', List.sum_replicate, smul_eq_mul]
    _ = df.nRows * df.cols.length := Nat.mul_comm _ _

theorem completeness_score_range (df : DFrame) (hwf : WFd df) :
    score_in_range (completeness_score df) := by
  unfold completeness_score
  have hle : (if 0 < df.nRows * df.cols.length then
      (nonNullCells df : ℚ) / ((df.nRows * df.cols.length : ℕ) : ℚ) else 0) ≤ 1 := by
    split_ifs with h
    · rw [div_le_one (by exact_mod_cast h)]
      exact_mod_cast nonNullCells_le df hwf
    · norm_num
  have hge : (0:ℚ) ≤ if 0 < df.nRows * df.cols.length then
      (nonNullCells df : ℚ) / ((df.nRows * df.cols.length : ℕ) : ℚ) else 0 := by
    split_ifs with h
    · positivity
    · norm_num
  exact round2_range (by nlinarith) (by nlinarith)

theorem uniqueness_score_range (df : DFrame) :
    score_in_range (uniqueness_score df) := by
  unfold uniqueness_score
  have hle : (if 0 < df.nRows then
      (unique_rows df : ℚ) / (df.nRows : ℚ) else 0) ≤ 1 := by
    split_ifs with h
    · rw [div_le_one (by exact_mod_cast h)]
      exact_mod_cast Nat.sub_le df.nRows (dup_count df)
    · norm_num
  have hge : (0:ℚ) ≤ if 0 < df.nRows then
      (unique_rows df : ℚ) / (df.nRows : ℚ) else 0 := by
    split_ifs with h
    · positivity
    · norm_num
  exact round2_range (by nlinarith) (by nlinarith)

theorem colChecks_le (c : Col) : (colChecks c).2 ≤ (colChecks c).1 := by
  cases c <;> simp only [colChecks] <;> (try split_ifs) <;> simp_all

theorem validity_passed_le (df : DFrame) : validity_passed df ≤ validity_total df := by
  unfold validity_passed validity_total
  exact List.sum_le_sum (fun c _ => colChecks_le c)

theorem validity_score_range (df : DFrame) : score_in_range (validity_score df) := by
  unfold validity_score
  apply round2_range
  · split_ifs with h
    · positivity
    · norm_num
  · split_ifs with h
    · have hle : (validity_passed df : ℚ) ≤ (validity_total df : ℚ) := by
        exact_mod_cast validity_passed_le df
      have hpos : (0:ℚ) < (validity_total df : ℚ) := by exact_mod_cast h
      calc (validity_passed df : ℚ) / (validity_total df : ℚ) * 100
          ≤ 1 * 100 :=
            mul_le_mul_of_nonneg_right ((div_le_one hpos).mpr hle) (by norm_num)
        _ = 100 := by norm_num
    · norm_num

theorem casePen_nonneg (c : Col) : 0 ≤ casePen c := by
  cases c <;> simp only [casePen] <;> (try split_ifs) <;> norm_num

theorem wsPen_nonneg (c : Col) : 0 ≤ wsPen c := by
  cases c <;> simp only [wsPen] <;> (try split_ifs) <;> norm_num

theorem datePen_nonneg (c : Col) : 0 ≤ datePen c := by
  cases c <;> simp only [datePen] <;> (try split_ifs) <;> norm_num

theorem rangePen_nonneg (c : Col) : 0 ≤ rangePen c := by
  cases c <;> simp only [rangePen] <;> (try split_ifs) <;> norm_num

theorem accPen_nonneg (c : Col) : 0 ≤ accPen c := by
  cases c <;> simp only [accPen] <;> (try split_ifs) <;> norm_num

theorem consistency_penalty_nonneg (df : DFrame) : 0 ≤ consistency_penalty df := by
  unfold consistency_penalty
  refine add_nonneg (add_nonneg ?_ ?_) ?_ <;>
    apply List.sum_nonneg <;> intro x hx <;> rw [List.mem_map] at hx <;>
    rcases hx with ⟨c, -, rfl⟩
  · exact add_nonneg (casePen_nonneg c) (wsPen_nonneg c)
  · exact datePen_nonneg c
  · exact rangePen_nonneg c

theorem consistency_score_range (df : DFrame) :
    score_in_range (consistency_score df) := by
  unfold consistency_score
  exact max0_round2_range (by linarith [consistency_penalty_nonneg df])

theorem accuracy_score_range (df : DFrame) :
    score_in_range (accuracy_score df) := by
  unfold accuracy_score
  have hp : 0 ≤ (df.cols.map accPen).sum := by
    apply List.sum_nonneg
    intro x hx
    rw [List.mem_map] at hx
    rcases hx with ⟨c, -, rfl⟩
    exact accPen_nonneg c
  exact max0_round2_range (by linarith)

theorem ml_readiness_score_range (df : DFrame) :
    score_in_range (ml_readiness_score df) := by
  unfold ml_readiness_score
  constructor
  · exact le_max_left _ _
  · apply max_le (by norm_num)
    have h1 : (0:ℚ) ≤ 3 * (high_corr_count df : ℚ) := by positivity
    have h2 : (0:ℚ) ≤ 5 * (low_var_count df : ℚ) := by positivity
    have h3 : (0:ℚ) ≤ 10 * (severe_count df : ℚ) := by positivity
    linarith

theorem agePenalty_nonneg (d : Int) : 0 ≤ agePenalty d := by
  unfold agePenalty
  split_ifs <;> norm_num

theorem timeliness_result_spec (today : Int) (df : DFrame) :
    ((measure_timeliness today df).score = none ↔ date_cols_data df = [])
    ∧ (∀ s, (measure_timeliness today df).score = some s → score_in_range s)
    ∧ ((measure_timeliness today df).score = none →
        (measure_timeliness today df).status = "unknown") := by
  unfold measure_timeliness
  by_cases h : (date_cols_data df).isEmpty
  · simp only [h, if_true]
    refine ⟨by simpa [List.isEmpty_iff] using h, fun s hs => by simp at hs, fun _ => by simp⟩
  · simp only [h, Bool.false_eq_true, if_false]
    have hsum : 0 ≤ ((((date_cols_data df).take 3).filterMap (colEntry today)).map
        Prod.snd).sum := by
      apply List.sum_nonneg
      intro x hx
      rw [List.mem_map] at hx
      rcases hx with ⟨pr, hpr, rfl⟩
      rw [List.mem_filterMap] at hpr
      rcases hpr with ⟨ds, -, hce⟩
      unfold colEntry at hce
      split at hce
      · exact absurd hce (by simp)
      · rw [Option.some_inj] at hce
        rw [← hce]
        exact agePenalty_nonneg _
    refine ⟨by simpa [List.isEmpty_iff] using h, fun s hs => ?_, fun hnone => by simp at hnone⟩
    rw [Option.some_inj] at hs
    rw [← hs]
    constructor
    · exact le_max_left _ _
    · exact max_le (by norm_num) (by linarith)

/-- C4: every classic dimension score and the ML-readiness score lie in
[0, 100]; the Timeliness score is null exactly when no datetime-bearing
column exists, in which case the status is "unknown", and is otherwise in
[0, 100] as well. -/
theorem dimension_scores_in_range (today : Int) (df : DFrame) (hwf : WFd df) :
    score_in_range (completeness_score df)
    ∧ score_in_range (uniqueness_score df)
    ∧ score_in_range (validity_score df)
    ∧ score_in_range (consistency_score df)
    ∧ score_in_range (accuracy_score df)
    ∧ score_in_range (ml_readiness_score df)
    ∧ ((measure_timeliness today df).score = none ↔ date_cols_data df = [])
    ∧ (∀ s, (measure_timeliness today df).score = some s → score_in_range s)
    ∧ ((measure_timeliness today df).score = none →
        (measure_timeliness today df).status = "unknown") :=
  ⟨completeness_score_range df hwf, uniqueness_score_range df, validity_score_range df,
   consistency_score_range df, accuracy_score_range df, ml_readiness_score_range df,
   (timeliness_result_spec today df).1, (timeliness_result_spec today df).2.1,
   (timeliness_result_spec today df).2.2⟩

theorem dimension_scores_in_range_witness :
    WFd no_target_df ∧ score_in_range (completeness_score no_target_df) :=
  ⟨by decide, (dimension_scores_in_range 0 no_target_df (by decide)).1⟩
